import Mathlib

/-!
Verification of the Beam Statics Evaluator in `src/Try.py`.

The file embeds the structural functions of the program — the reaction
solver `compute_reactions`, the bending-moment function `moment_along_beam`,
the beam discretization (`np.linspace`), the inline section properties and
stress expression of `BeamStressApp.update_plot`, and the load-position
clamp — as executable functions over `ℚ`, and proves the spec's properties
about them.  Real (float) arithmetic of the source is modelled by exact
rational arithmetic.
-/

/-- Embedding of `compute_reactions(L, P, a, w)` (src/Try.py lines 10-15):
simply supported beam with point load `P` at `x = a` and full-span UDL `w`;
returns the pair of support reactions `(RA, RB)`. -/
def compute_reactions (L P a w : ℚ) : ℚ × ℚ :=
  let total_udl := w * L
  let RB := (P * a + total_udl * (L / 2)) / L
  let RA := (P + total_udl) - RB
  (RA, RB)

/-- Embedding of `moment_along_beam(x, L, RA, P, a, w)` (src/Try.py lines
18-26): sagging-positive bending moment at position `x`.  The numpy step
`H = (x >= a).astype(float)` becomes an if-then-else on `a ≤ x`. -/
def moment_along_beam (x L RA P a w : ℚ) : ℚ :=
  let H : ℚ := if a ≤ x then 1 else 0
  RA * x - w * x ^ 2 / 2 - P * (x - a) * H

/-- Embedding of the discretization `x = np.linspace(0, L, n)` (src/Try.py
line 135): `n` evenly spaced sample positions over `[0, L]`, both endpoints
included; sample `i` sits at `L * i / (n - 1)`. -/
def sampleBeam (L : ℚ) (n : ℕ) : List ℚ :=
  (List.range n).map (fun i : ℕ => L * (i : ℚ) / ((n - 1 : ℕ) : ℚ))

/-- Embedding of the range clamp a `QDoubleSpinBox` applies to its stored
value; the position box is configured `self.a.setRange(0.0, 1e6)` at
src/Try.py line 52, so every value read from it lies in `[0, 1e6]`. -/
def widget_clamp (lo hi v : ℚ) : ℚ :=
  max lo (min v hi)

/-- Embedding of the explicit clamp in `BeamStressApp.update_plot`
(src/Try.py lines 119-121): `if a > L: a = L`. -/
def clamp_a (L a : ℚ) : ℚ :=
  if L < a then L else a

/-- The load position actually used by `update_plot` for a requested value
`v`: the spin box confines `v` to `[0, 1e6]` and lines 119-121 then clamp
the result to at most `L`. -/
def pipeline_a (L v : ℚ) : ℚ :=
  clamp_a L (widget_clamp 0 1000000 v)

/-- Embedding of the second moment of area `I = b * h**3 / 12.0`
(src/Try.py line 128) for the rectangular section. -/
def sectionI (b h : ℚ) : ℚ :=
  b * h ^ 3 / 12

/-- Embedding of the extreme-fiber distance `c = h / 2.0`
(src/Try.py line 129). -/
def sectionC (h : ℚ) : ℚ :=
  h / 2

/-- Embedding of the pointwise stress expression `sigma = np.abs(M) * c / I`
(src/Try.py line 137).  The source evaluates the division unconditionally —
there is no guard on `I` and no exception branch anywhere in the expression —
so the `Except` wrapper (modelling a fallible step) always returns `ok`. -/
def bending_stress (M c I : ℚ) : Except String ℚ :=
  Except.ok (|M| * c / I)

/-- C1: for every L > 0, P ≥ 0, 0 ≤ a ≤ L and w ≥ 0, the reactions returned
by `compute_reactions` satisfy static equilibrium: RA + RB = P + w·L. -/
theorem reactions_equilibrium (L P a w : ℚ)
    (hL : 0 < L) (hP : 0 ≤ P) (ha0 : 0 ≤ a) (haL : a ≤ L) (hw : 0 ≤ w) :
    (compute_reactions L P a w).1 + (compute_reactions L P a w).2
      = P + w * L := by
  simp only [compute_reactions]
  ring

/-- Witness for C1 at the spec's concrete scenario L=6, P=20000, a=3, w=5000. -/
theorem reactions_equilibrium_witness :
    (compute_reactions 6 20000 3 5000).1 + (compute_reactions 6 20000 3 5000).2
      = 20000 + 5000 * 6 :=
  reactions_equilibrium 6 20000 3 5000 (by norm_num) (by norm_num)
    (by norm_num) (by norm_num) (by norm_num)

/-- C6: for L > 0 and P ≥ 0, a point load at midspan with no UDL gives
symmetric reactions RA = RB = P/2. -/
theorem reactions_symmetric_midspan (L P : ℚ) (hL : 0 < L) (hP : 0 ≤ P) :
    compute_reactions L P (L / 2) 0 = (P / 2, P / 2) := by
  simp only [compute_reactions, Prod.mk.injEq]
  have hL0 : L ≠ 0 := ne_of_gt hL
  constructor <;> field_simp <;> ring

/-- Witness for C6 at L = 6, P = 20000. -/
theorem reactions_symmetric_midspan_witness :
    compute_reactions 6 20000 (6 / 2) 0 = (20000 / 2, 20000 / 2) :=
  reactions_symmetric_midspan 6 20000 (by norm_num) (by norm_num)

/-- C7: for L > 0 and w ≥ 0, if the point load is zero the reactions are
RA = RB = w·L/2 whatever the position `a` is. -/
theorem reactions_pure_udl (L a w : ℚ) (hL : 0 < L) (hw : 0 ≤ w) :
    compute_reactions L 0 a w = (w * L / 2, w * L / 2) := by
  simp only [compute_reactions, Prod.mk.injEq]
  have hL0 : L ≠ 0 := ne_of_gt hL
  constructor <;> field_simp <;> ring

/-- Witness for C7 at the spec's concrete scenario L=10, P=0, w=2000
(RA = RB = 10000). -/
theorem reactions_pure_udl_witness :
    compute_reactions 10 0 7 2000 = (2000 * 10 / 2, 2000 * 10 / 2) :=
  reactions_pure_udl 10 7 2000 (by norm_num) (by norm_num)

/-- C8: `moment_along_beam` ignores its span parameter entirely — two calls
differing only in the span agree; the span influences the moment profile
only through the reactions and the sampled positions. -/
theorem moment_ignores_span (x L L' RA P a w : ℚ) :
    moment_along_beam x L RA P a w = moment_along_beam x L' RA P a w := rfl

/-- C9: `compute_reactions` is homogeneous of degree 1 in the loads:
scaling P and w by k scales both reactions by k.  This is what makes the
kN→N conversion at src/Try.py lines 124-125 cancel against the /1e3 display
at lines 188-189. -/
theorem reactions_homogeneous (L P a w k : ℚ)
    (hL : 0 < L) (hP : 0 ≤ P) (hw : 0 ≤ w) (hk : 0 ≤ k) :
    compute_reactions L (k * P) a (k * w)
      = (k * (compute_reactions L P a w).1, k * (compute_reactions L P a w).2) := by
  simp only [compute_reactions, Prod.mk.injEq]
  constructor <;> ring

/-- Witness for C9 at L=6, P=20, a=3, w=5, k=1000 (the kN→N conversion). -/
theorem reactions_homogeneous_witness :
    compute_reactions 6 (1000 * 20) 3 (1000 * 5)
      = (1000 * (compute_reactions 6 20 3 5).1, 1000 * (compute_reactions 6 20 3 5).2) :=
  reactions_homogeneous 6 20 3 5 1000 (by norm_num) (by norm_num)
    (by norm_num) (by norm_num)

/-- C10: the moment is continuous at the point-load position: at x = a the
step factor multiplies (a - a) = 0, so M(a) = RA·a - w·a²/2, and the same
value results whatever value `s` the unit step takes at x = a. -/
theorem moment_continuous_at_load (L RA P a w : ℚ) :
    moment_along_beam a L RA P a w = RA * a - w * a ^ 2 / 2 ∧
      ∀ s : ℚ, RA * a - w * a ^ 2 / 2 - P * (a - a) * s
        = moment_along_beam a L RA P a w := by
  have h : moment_along_beam a L RA P a w = RA * a - w * a ^ 2 / 2 := by
    simp only [moment_along_beam, le_refl, if_pos]
    ring
  exact ⟨h, fun s => by rw [h]; ring⟩

/-- C3: with the reactions produced by `compute_reactions`, the bending
moment vanishes at both supports: M(0) = 0 and M(L) = 0. -/
theorem moment_zero_at_supports (L P a w : ℚ)
    (hL : 0 < L) (hP : 0 ≤ P) (ha0 : 0 ≤ a) (haL : a ≤ L) (hw : 0 ≤ w) :
    moment_along_beam 0 L (compute_reactions L P a w).1 P a w = 0 ∧
      moment_along_beam L L (compute_reactions L P a w).1 P a w = 0 := by
  have hL0 : L ≠ 0 := ne_of_gt hL
  constructor
  · simp only [moment_along_beam, compute_reactions]
    rcases le_or_lt a 0 with hc | hc
    · have ha : a = 0 := le_antisymm hc ha0
      subst ha
      simp
    · rw [if_neg (not_le.2 hc)]
      ring
  · simp only [moment_along_beam, compute_reactions, if_pos haL]
    field_simp
    ring

/-- Witness for C3 at L=6, P=20000, a=3, w=5000. -/
theorem moment_zero_at_supports_witness :
    moment_along_beam 0 6 (compute_reactions 6 20000 3 5000).1 20000 3 5000 = 0 ∧
      moment_along_beam 6 6 (compute_reactions 6 20000 3 5000).1 20000 3 5000 = 0 :=
  moment_zero_at_supports 6 20000 3 5000 (by norm_num) (by norm_num)
    (by norm_num) (by norm_num) (by norm_num)

/-- C4: for a requested load position outside [0, L], the update pipeline
(spin-box range clamp to [0, 1e6] followed by the explicit `a > L` clamp)
normalizes the position to the nearest valid endpoint — 0 when v < 0, L when
v > L — leaving it in [0, L], and the reaction computation then proceeds
normally (equilibrium still holds for the clamped position). -/
theorem pipeline_clamps_a (L v P w : ℚ) (hL : 0 < L) (hL6 : L ≤ 1000000)
    (hout : v < 0 ∨ L < v) :
    (v < 0 → pipeline_a L v = 0) ∧
      (L < v → pipeline_a L v = L) ∧
      0 ≤ pipeline_a L v ∧ pipeline_a L v ≤ L ∧
      (compute_reactions L P (pipeline_a L v) w).1
        + (compute_reactions L P (pipeline_a L v) w).2 = P + w * L := by
  have hneg : v < 0 → pipeline_a L v = 0 := by
    intro hv
    unfold pipeline_a clamp_a widget_clamp
    rw [min_eq_left (by linarith), max_eq_left hv.le, if_neg (not_lt.2 hL.le)]
  have hpos : L < v → pipeline_a L v = L := by
    intro hv
    unfold pipeline_a clamp_a widget_clamp
    rcases le_or_lt v 1000000 with h6 | h6
    · rw [min_eq_left h6, max_eq_right (by linarith), if_pos hv]
    · rw [min_eq_right (by linarith), max_eq_right (by norm_num)]
      rcases lt_or_eq_of_le hL6 with hc | hc
      · rw [if_pos hc]
      · rw [if_neg (not_lt.2 hc.ge)]
        exact hc.symm
  have hbounds : 0 ≤ pipeline_a L v ∧ pipeline_a L v ≤ L := by
    rcases hout with hv | hv
    · rw [hneg hv]; exact ⟨le_refl 0, hL.le⟩
    · rw [hpos hv]; exact ⟨hL.le, le_refl L⟩
  refine ⟨hneg, hpos, hbounds.1, hbounds.2, ?_⟩
  simp only [compute_reactions]
  ring

/-- Witness for C4 at L = 6 with the out-of-range request v = -1. -/
theorem pipeline_clamps_a_witness :
    ((-1 : ℚ) < 0 → pipeline_a 6 (-1) = 0) ∧
      ((6 : ℚ) < -1 → pipeline_a 6 (-1) = 6) ∧
      0 ≤ pipeline_a 6 (-1) ∧ pipeline_a 6 (-1) ≤ 6 ∧
      (compute_reactions 6 20000 (pipeline_a 6 (-1)) 5000).1
        + (compute_reactions 6 20000 (pipeline_a 6 (-1)) 5000).2
          = 20000 + 5000 * 6 :=
  pipeline_clamps_a 6 (-1) 20000 5000 (by norm_num) (by norm_num)
    (Or.inl (by norm_num))

/-- C5: for L > 0 and n ≥ 2, `sampleBeam L n` has exactly n elements, starts
at 0, ends at L, is strictly increasing, and has uniform spacing L/(n-1)
between consecutive samples. -/
theorem sampleBeam_spec (L : ℚ) (n : ℕ) (hL : 0 < L) (hn : 2 ≤ n) :
    (sampleBeam L n).length = n ∧
      (sampleBeam L n).head? = some 0 ∧
      (sampleBeam L n).getLast? = some L ∧
      (sampleBeam L n).Pairwise (· < ·) ∧
      (sampleBeam L n).Chain' (fun p q => q - p = L / ((n - 1 : ℕ) : ℚ)) := by
  have hn0 : 0 < n := by omega
  have hd0 : ((n - 1 : ℕ) : ℚ) ≠ 0 := Nat.cast_ne_zero.mpr (by omega)
  have hdpos : (0 : ℚ) < ((n - 1 : ℕ) : ℚ) := by
    exact_mod_cast Nat.pos_of_ne_zero (by omega)
  have hlen : (sampleBeam L n).length = n := by simp [sampleBeam]
  refine ⟨hlen, ?_, ?_, ?_, ?_⟩
  · rw [sampleBeam, List.head?_eq_getElem?, List.getElem?_map,
      List.getElem?_range hn0]
    simp
  · rw [List.getLast?_eq_getElem?, hlen, sampleBeam, List.getElem?_map,
      List.getElem?_range (by omega : n - 1 < n)]
    simp [mul_div_assoc, div_self hd0]
  · rw [sampleBeam, List.pairwise_map]
    refine (List.pairwise_lt_range n).imp ?_
    intro i j hij
    have hij' : (i : ℚ) < j := by exact_mod_cast hij
    exact (div_lt_div_iff_of_pos_right hdpos).mpr
      (mul_lt_mul_of_pos_left hij' hL)
  · rw [sampleBeam, List.chain'_map]
    obtain ⟨m, rfl⟩ : ∃ m, n = m + 1 := ⟨n - 1, by omega⟩
    rw [List.chain'_range_succ]
    intro i hi
    rw [div_sub_div_same]
    congr 1
    push_cast
    ring

/-- Witness for C5 at L = 6, n = 3 (samples 0, 3, 6). -/
theorem sampleBeam_spec_witness :
    (sampleBeam 6 3).length = 3 ∧
      (sampleBeam 6 3).head? = some 0 ∧
      (sampleBeam 6 3).getLast? = some 6 ∧
      (sampleBeam 6 3).Pairwise (· < ·) ∧
      (sampleBeam 6 3).Chain' (fun p q => q - p = 6 / ((3 - 1 : ℕ) : ℚ)) :=
  sampleBeam_spec 6 3 (by norm_num) (by norm_num)

/-- C2 counterexample: at the degenerate section I = 0 the stress expression
of src/Try.py line 137 does not fail with any error — it evaluates and
returns a value (the division is executed unconditionally; no InvalidSection
error exists anywhere in the code). -/
theorem bending_stress_ok_at_zero_I :
    bending_stress 25000 (9 / 40) 0 = Except.ok 0 ∧
      (bending_stress 25000 (9 / 40) 0).isOk = true := by
  constructor
  · simp [bending_stress]
  · rfl

/-- C2 amended: the stress step never fails, even for I ≤ 0 — there is no
InvalidSection error path in the code; instead, the UI keeps the degenerate
case unreachable, since the section spin boxes enforce b, h ≥ 0.001 and then
I = b·h³/12 > 0; reactions stay valid (equilibrium) regardless of the
section. -/
theorem bending_stress_never_fails (M c I b h : ℚ) (hI : I ≤ 0)
    (hb : 1 / 1000 ≤ b) (hh : 1 / 1000 ≤ h) :
    (bending_stress M c I).isOk = true ∧
      0 < sectionI b h ∧
      ∀ L P aa ww : ℚ,
        (compute_reactions L P aa ww).1 + (compute_reactions L P aa ww).2
          = P + ww * L := by
  have hb0 : (0 : ℚ) < b := lt_of_lt_of_le (by norm_num) hb
  have hh0 : (0 : ℚ) < h := lt_of_lt_of_le (by norm_num) hh
  refine ⟨rfl, ?_, ?_⟩
  · unfold sectionI
    positivity
  · intro L P aa ww
    simp only [compute_reactions]
    ring

/-- Witness for the amended C2 at I = 0, b = 0.25, h = 0.45. -/
theorem bending_stress_never_fails_witness :
    (bending_stress 25000 (9 / 40) (0 : ℚ)).isOk = true ∧
      0 < sectionI (1 / 4) (9 / 20) ∧
      ∀ L P aa ww : ℚ,
        (compute_reactions L P aa ww).1 + (compute_reactions L P aa ww).2
          = P + ww * L :=
  bending_stress_never_fails 25000 (9 / 40) 0 (1 / 4) (9 / 20)
    (by norm_num) (by norm_num) (by norm_num)
